import Mathlib

/-!
# Verification of the face-detection-server detection pipeline

Shallow embedding of the core of the `face-detection-server` repository:
the bounded job queue (`src/image_queue.rs`), the scheduler loop
(`src/queue_processor.rs`) and the postprocessing pipeline
(`src/ultra_predictor.rs`: confidence filter, ascending sort,
greedy non-maximum suppression over intersection-over-union).

Modelling conventions:
* Rust `f32` values are embedded as exact rationals (`ℚ`).  An `f32` that
  may be an IEEE NaN (a detector confidence) is embedded as `Option ℚ`
  with `none` standing for NaN; the IEEE rule that every ordered
  comparison against NaN is false is made explicit in `flt_gt`.
  Exact rational arithmetic never rounds, while f32 does; the theorems
  below are stated so that they hold in both arithmetics (structural
  properties of the algorithms, or concrete inputs where rounding does
  not affect the claimed relation), and the one place where the two
  visibly diverge — the `+ EPS` tail of the self-IoU, absorbed by f32
  rounding at areas of 2 or more — is flagged at `iou_self`.
* The queue's backing `Vec<QueueItem>` is a `List α`; `push` appends at
  the back, `drain` returns the whole list and leaves the queue empty,
  exactly as `Vec::push` / `Vec::drain(..)` do under the queue's mutex.
* The scheduler's per-job control flow is embedded as a function from a
  record of the job's fallible-step outcomes to the observable result of
  the loop body (continue, `process::exit`, or panic).
-/

namespace FaceDetection

/-! ## Geometry (`src/ultra_predictor.rs`)

The Rust `Bbox` is `[f32; 4]` laid out as
`[x_top_left, y_top_left, x_bottom_right, y_bottom_right]`. -/

structure Bbox where
  x_tl : ℚ
  y_tl : ℚ
  x_br : ℚ
  y_br : ℚ
  deriving DecidableEq, Repr

/-- Embeds `static CONFIDENCE_THRESHOLD: f32 = 0.5`. -/
def CONFIDENCE_THRESHOLD : ℚ := 1/2

/-- Embeds `static MAX_IOU: f32 = 0.5`. -/
def MAX_IOU : ℚ := 1/2

/-- Embeds `static EPS: f32 = 1.0e-7`, the positive additive constant used
to avoid divide-by-zero in `iou`. -/
def EPS : ℚ := 1/10000000

/-- Embeds `bbox_area` (`ultra_predictor.rs:193`).  The source computes
`width = bbox[3] - bbox[1]` and `height = bbox[2] - bbox[0]` (the local
names are swapped relative to the geometric axes, which does not affect
the product), and returns `0.0` when either is negative. -/
def bbox_area (bbox : Bbox) : ℚ :=
  let width := bbox.y_br - bbox.y_tl
  let height := bbox.x_br - bbox.x_tl
  if width < 0 ∨ height < 0 then 0 else width * height

/-- Embeds `iou` (`ultra_predictor.rs:169`): the overlap box is the
per-axis max of top-left and min of bottom-right corners, and the result
is `overlap / (area a + area b - overlap + EPS)`. -/
def iou (bbox_a bbox_b : Bbox) : ℚ :=
  let overlap_box : Bbox :=
    ⟨max bbox_a.x_tl bbox_b.x_tl, max bbox_a.y_tl bbox_b.y_tl,
     min bbox_a.x_br bbox_b.x_br, min bbox_a.y_br bbox_b.y_br⟩
  let overlap_area := bbox_area overlap_box
  overlap_area / (bbox_area bbox_a + bbox_area bbox_b - overlap_area + EPS)

/-! ## Non-maximum suppression (`ultra_predictor.rs:140`)

The source pops the most confident candidate from the back of the
ascending-sorted vector and appends it to `selected` unless it overlaps
(IoU strictly above `max_iou`) with an already selected box.  Popping
from the back of a list is consuming the head of its reversal, so the
loop is embedded as a head-recursive function over the reversed list. -/

/-- One iteration of the `'candidates` loop: `candidates` is the not yet
popped part of the (reversed) input, `selected` the accumulator grown by
`selected.push(..)` at its back. -/
def nms_loop (candidates selected : List (Bbox × ℚ)) (max_iou : ℚ) :
    List (Bbox × ℚ) :=
  match candidates with
  | [] => selected
  | (bbox, confidence) :: rest =>
    if selected.any (fun s => decide (max_iou < iou bbox s.1)) then
      nms_loop rest selected max_iou
    else
      nms_loop rest (selected ++ [(bbox, confidence)]) max_iou

/-- Embeds `non_maximum_suppression` (`ultra_predictor.rs:140`): the
argument list must be sorted ascending by confidence; the most confident
element is popped from the back first. -/
def non_maximum_suppression (sorted_bboxes_with_confidences : List (Bbox × ℚ))
    (max_iou : ℚ) : List (Bbox × ℚ) :=
  nms_loop sorted_bboxes_with_confidences.reverse [] max_iou

/-! ## Postprocessing (`UltraPredictor::post_process`, `ultra_predictor.rs:103`) -/

/-- An `f32` detector confidence: `none` models an IEEE NaN. -/
abbrev Flt := Option ℚ

/-- The strict comparison `*x > CONFIDENCE_THRESHOLD` used by the filter
in `post_process` (`ultra_predictor.rs:117`).  Per IEEE-754, every
ordered comparison involving NaN evaluates to false. -/
def flt_gt (x : Flt) (t : ℚ) : Bool :=
  match x with
  | none => false
  | some v => decide (t < v)

/-- The `filter_map` stage of `post_process` (`ultra_predictor.rs:113`):
keep exactly the candidates whose confidence compares strictly greater
than `CONFIDENCE_THRESHOLD`. -/
def confidence_filter (cands : List (Bbox × Flt)) : List (Bbox × Flt) :=
  cands.filter (fun p => flt_gt p.2 CONFIDENCE_THRESHOLD)

/-- Strips the `Option` layer from confidences that survived the filter
(every survivor is a `some`, proved below). -/
def strip_conf (cands : List (Bbox × Flt)) : List (Bbox × ℚ) :=
  cands.filterMap (fun p => p.2.map (fun c => (p.1, c)))

/-- The ascending `sort_by(|a, b| a.1.partial_cmp(b.1).unwrap())` stage
(`ultra_predictor.rs:122`), embedded as a stable insertion sort on the
(NaN-free) confidences. -/
def sort_by_conf (l : List (Bbox × ℚ)) : List (Bbox × ℚ) :=
  List.insertionSort (fun p q => p.2 ≤ q.2) l

/-- Embeds the candidate pipeline of `UltraPredictor::post_process`
(`ultra_predictor.rs:103`): filter by strict confidence threshold, sort
ascending by confidence, then greedy NMS at `MAX_IOU`. -/
def post_process (cands : List (Bbox × Flt)) : List (Bbox × ℚ) :=
  non_maximum_suppression (sort_by_conf (strip_conf (confidence_filter cands)))
    MAX_IOU

/-- The Rust `post_process` returns `Result<Vec<(Bbox, f32)>, OrtError>`;
its only fallible operations are the raw-tensor extractions that precede
the candidate pipeline.  Given already-extracted candidates it never
returns an error, which this wrapper records in the embedded type. -/
def post_process_res (cands : List (Bbox × Flt)) :
    Except Unit (List (Bbox × ℚ)) :=
  Except.ok (post_process cands)

/-! ## Job queue (`src/image_queue.rs`)

The queue state is the backing `Vec<QueueItem>`; items are kept abstract
in a type parameter. -/

/-- Embeds `static QUEUE_SIZE: usize = 10000`. -/
def QUEUE_SIZE : ℕ := 10000

/-- Embeds `ImageQueue::push` (`image_queue.rs:38`): `Vec::push` appends
at the back of the backing vector. -/
def push {α : Type} (queue : List α) (item : α) : List α :=
  queue ++ [item]

/-- Embeds `ImageQueue::drain` (`image_queue.rs:29`): `Vec::drain(..)`
returns all items front-to-back and leaves the vector empty.  The result
is the pair (drained items, new queue state). -/
def drain {α : Type} (queue : List α) : List α × List α :=
  (queue, [])

/-- Embeds `ImageQueue::is_full` (`image_queue.rs:34`):
`self.queue.lock().unwrap().len() > QUEUE_SIZE`. -/
def is_full {α : Type} (queue : List α) : Bool :=
  decide (queue.length > QUEUE_SIZE)

/-! ## Scheduler loop body (`src/queue_processor.rs`)

The body of `process_queue_task`'s `for item in queue.drain()` loop is a
chain of fallible steps.  Each job is embedded as the record of its
step outcomes (`true` = the corresponding call returns `Ok`); the loop
body is a function from that record to the observable control effect. -/

structure JobEnv where
  /-- `Reader::open(image_location)` succeeds (`queue_processor.rs:25`). -/
  openOk : Bool
  /-- `image_buf.decode()` succeeds (`queue_processor.rs:35`). -/
  decodeOk : Bool
  /-- `ultra_predictor.run(&image)` succeeds (`queue_processor.rs:49`). -/
  inferOk : Bool
  /-- `File::create(..)` succeeds (`queue_processor.rs:52`). -/
  createOk : Bool
  /-- `serde_json::to_writer(..)` succeeds (`queue_processor.rs:64`). -/
  writeOk : Bool
  /-- `writer.flush()` succeeds (`queue_processor.rs:73`). -/
  flushOk : Bool
  /-- `fs::remove_file(image_location)` succeeds (`queue_processor.rs:89`). -/
  removeOk : Bool
  deriving DecidableEq, Repr

/-- Observable control effect of one iteration of the drain loop. -/
inductive StepResult where
  /-- Success path ran to the end; loop continues with the next job. -/
  | done
  /-- A handled per-job failure was logged and the job abandoned;
  loop continues with the next job. -/
  | skipped
  /-- `process::exit(-1)` was reached inside `remove_temp_file`. -/
  | procExit
  /-- The `.unwrap()` on the inference result panicked. -/
  | panicked
  deriving DecidableEq, Repr

/-- Embeds `remove_temp_file` (`queue_processor.rs:87`): removal failure
hits `process::exit(-1)`; otherwise control continues with `cont`. -/
def remove_temp_file (removeOk : Bool) (cont : StepResult) : StepResult :=
  if removeOk then cont else StepResult.procExit

/-- Embeds the body of the drain loop in `process_queue_task`
(`queue_processor.rs:22`-`83`), branch for branch:
open failure, decode failure, `File::create` failure, write failure and
flush failure are each logged, the staged file removed, and the loop
continued; the success path ends in `remove_temp_file` as well.  The
inference call's result is `.unwrap()`ed (`queue_processor.rs:49`), so an
inference failure panics before any cleanup. -/
def process_item (j : JobEnv) : StepResult :=
  if !j.openOk then remove_temp_file j.removeOk StepResult.skipped
  else if !j.decodeOk then remove_temp_file j.removeOk StepResult.skipped
  else if !j.inferOk then StepResult.panicked
  else if !j.createOk then remove_temp_file j.removeOk StepResult.skipped
  else if !j.writeOk then remove_temp_file j.removeOk StepResult.skipped
  else if !j.flushOk then remove_temp_file j.removeOk StepResult.skipped
  else remove_temp_file j.removeOk StepResult.done

/-- Whether the loop body reaches a `remove_temp_file` call for this job:
it does on every path except the one that panics on the `.unwrap()`ed
inference failure. -/
def attempts_remove (j : JobEnv) : Bool :=
  if !j.openOk then true
  else if !j.decodeOk then true
  else if !j.inferOk then false
  else true

/-- Embeds one full drain's processing: jobs are handled sequentially,
and both `process::exit(-1)` and a task panic stop the loop so that no
later job of the drain is processed. -/
def process_drain : List JobEnv → List StepResult
  | [] => []
  | j :: rest =>
    match process_item j with
    | StepResult.done => StepResult.done :: process_drain rest
    | StepResult.skipped => StepResult.skipped :: process_drain rest
    | StepResult.procExit => [StepResult.procExit]
    | StepResult.panicked => [StepResult.panicked]

/-! ## Helper lemmas -/

/-- The area returned by `bbox_area` is never negative. -/
theorem bbox_area_nonneg (b : Bbox) : 0 ≤ bbox_area b := by
  simp only [bbox_area]
  split
  · exact le_refl 0
  · next h =>
    push_neg at h
    exact mul_nonneg h.1 h.2

/-- `iou` is symmetric in its two arguments. -/
theorem iou_comm (a b : Bbox) : iou a b = iou b a := by
  simp only [iou]
  rw [max_comm a.x_tl, max_comm a.y_tl, min_comm a.x_br, min_comm a.y_br,
    add_comm (bbox_area a)]

/-- The overlap relation used throughout: the boxes of two candidates
have IoU at most `t`. -/
def iouLe (t : ℚ) (p q : Bbox × ℚ) : Prop := iou p.1 q.1 ≤ t

/-- The rejection check of the `'candidates` loop, read off on a selected
list: if the `any` test is false, the candidate's IoU with every selected
box is at most `max_iou`. -/
theorem any_eq_false_iff (b : Bbox) (t : ℚ) (sel : List (Bbox × ℚ)) :
    (sel.any (fun s => decide (t < iou b s.1)) = false) ↔
      ∀ s ∈ sel, iou b s.1 ≤ t := by
  simp [List.any_eq_true, not_lt]

/-- Invariant of the NMS loop: if the accumulated `selected` list is
pairwise non-overlapping (IoU at most `t`), so is the final result. -/
theorem nms_loop_pairwise (t : ℚ) :
    ∀ (cands sel : List (Bbox × ℚ)),
      sel.Pairwise (iouLe t) → (nms_loop cands sel t).Pairwise (iouLe t)
  | [], sel, h => h
  | (b, c) :: rest, sel, h => by
    simp only [nms_loop]
    by_cases hany : sel.any (fun s => decide (t < iou b s.1)) = true
    · rw [if_pos hany]
      exact nms_loop_pairwise t rest sel h
    · rw [if_neg hany]
      refine nms_loop_pairwise t rest _ ?_
      rw [List.pairwise_append]
      refine ⟨h, List.pairwise_singleton _ _, ?_⟩
      intro p hp q hq
      rw [List.mem_singleton] at hq
      subst hq
      have hall := (any_eq_false_iff b t sel).mp (Bool.eq_false_iff.mpr hany)
      have := hall p hp
      unfold iouLe
      rw [iou_comm]
      exact this

/-- If the remaining candidates are pairwise non-overlapping and none of
them overlaps a selected box, the NMS loop keeps every candidate, in
order. -/
theorem nms_loop_all_kept (t : ℚ) :
    ∀ (cands sel : List (Bbox × ℚ)),
      cands.Pairwise (iouLe t) →
      (∀ c ∈ cands, ∀ s ∈ sel, iou c.1 s.1 ≤ t) →
      nms_loop cands sel t = sel ++ cands
  | [], sel, _, _ => by simp [nms_loop]
  | (b, c) :: rest, sel, hpair, hcross => by
    simp only [nms_loop]
    have hany : sel.any (fun s => decide (t < iou b s.1)) = false :=
      (any_eq_false_iff b t sel).mpr
        (fun s hs => hcross (b, c) (List.mem_cons_self _ _) s hs)
    rw [if_neg (by simp [hany]),
      nms_loop_all_kept t rest (sel ++ [(b, c)]) hpair.tail ?_]
    · simp
    · intro c' hc' s hs
      rcases List.mem_append.mp hs with hsel | hbc
      · exact hcross c' (List.mem_cons_of_mem _ hc') s hsel
      · rw [List.mem_singleton] at hbc
        subst hbc
        have := (List.pairwise_cons.mp hpair).1 c' hc'
        unfold iouLe at this
        rw [iou_comm]
        exact this

/-- If the candidates are in descending confidence order, the selected
accumulator is in descending order, and every remaining candidate's
confidence is at most that of every selected box, then the NMS loop's
result is in descending confidence order. -/
theorem nms_loop_desc (t : ℚ) :
    ∀ (cands sel : List (Bbox × ℚ)),
      cands.Pairwise (fun p q => q.2 ≤ p.2) →
      sel.Pairwise (fun p q => q.2 ≤ p.2) →
      (∀ s ∈ sel, ∀ c ∈ cands, c.2 ≤ s.2) →
      (nms_loop cands sel t).Pairwise (fun p q => q.2 ≤ p.2)
  | [], sel, _, hsel, _ => hsel
  | (b, c) :: rest, sel, hcand, hsel, hcross => by
    simp only [nms_loop]
    have hrest : ∀ q ∈ rest, q.2 ≤ c := (List.pairwise_cons.mp hcand).1
    by_cases hany : sel.any (fun s => decide (t < iou b s.1)) = true
    · rw [if_pos hany]
      exact nms_loop_desc t rest sel hcand.tail hsel
        (fun s hs c' hc' => hcross s hs c' (List.mem_cons_of_mem _ hc'))
    · rw [if_neg hany]
      refine nms_loop_desc t rest (sel ++ [(b, c)]) hcand.tail ?_ ?_
      · rw [List.pairwise_append]
        refine ⟨hsel, List.pairwise_singleton _ _, ?_⟩
        intro p hp q hq
        rw [List.mem_singleton] at hq
        subst hq
        exact hcross p hp (b, c) (List.mem_cons_self _ _)
      · intro s hs c' hc'
        rcases List.mem_append.mp hs with hsel' | hbc
        · exact hcross s hsel' c' (List.mem_cons_of_mem _ hc')
        · rw [List.mem_singleton] at hbc
          subst hbc
          exact hrest c' hc'

/-- `iou` of a box with itself is its area divided by its area plus
`EPS`, in the exact-rational embedding.  (In the program's f32 the
`+ EPS` tail is absorbed by round-to-nearest whenever it is below half
an ulp of the area — for any area of 2 or more — so this closed form,
and conclusions drawn from it, transfer to f32 only at inputs where the
rounding does not affect the claimed relation.) -/
theorem iou_self (a : Bbox) :
    iou a a = bbox_area a / (bbox_area a + EPS) := by
  simp only [iou, max_self, min_self]
  have hbox : (⟨a.x_tl, a.y_tl, a.x_br, a.y_br⟩ : Bbox) = a := rfl
  rw [hbox]
  congr 1
  ring

/-- Two strictly separated boxes (on the x axis or on the y axis) have
IoU exactly zero: the overlap box is degenerate, its area is zero, and
zero divided by anything is zero. -/
theorem iou_disjoint (a b : Bbox)
    (h : a.x_br < b.x_tl ∨ b.x_br < a.x_tl ∨ a.y_br < b.y_tl ∨ b.y_br < a.y_tl) :
    iou a b = 0 := by
  simp only [iou]
  have hov : bbox_area ⟨max a.x_tl b.x_tl, max a.y_tl b.y_tl,
      min a.x_br b.x_br, min a.y_br b.y_br⟩ = 0 := by
    simp only [bbox_area]
    rw [if_pos]
    rcases h with h | h | h | h
    · exact Or.inr (sub_neg.mpr
        (lt_of_le_of_lt (min_le_left _ _) (lt_of_lt_of_le h (le_max_right _ _))))
    · exact Or.inr (sub_neg.mpr
        (lt_of_le_of_lt (min_le_right _ _) (lt_of_lt_of_le h (le_max_left _ _))))
    · exact Or.inl (sub_neg.mpr
        (lt_of_le_of_lt (min_le_left _ _) (lt_of_lt_of_le h (le_max_right _ _))))
    · exact Or.inl (sub_neg.mpr
        (lt_of_le_of_lt (min_le_right _ _) (lt_of_lt_of_le h (le_max_left _ _))))
  rw [hov, zero_div]

/-! ## Claim theorems -/

/-- Claim C1: for every list of candidate boxes and every IoU threshold,
the output of `non_maximum_suppression` contains no two boxes whose IoU
exceeds the threshold (pairwise, the IoU of any two output boxes is at
most `max_iou`; by `iou_comm` this bounds both orientations of each
pair). -/
theorem nms_output_no_overlap (l : List (Bbox × ℚ)) (max_iou : ℚ) :
    (non_maximum_suppression l max_iou).Pairwise (iouLe max_iou) :=
  nms_loop_pairwise max_iou l.reverse [] List.Pairwise.nil

/-- Claim C9: `non_maximum_suppression` is idempotent up to order —
re-running NMS on its own output returns the same set (in fact the same
multiset: a permutation, namely the reversal) of boxes. -/
theorem nms_idempotent_perm (l : List (Bbox × ℚ)) (max_iou : ℚ) :
    (non_maximum_suppression (non_maximum_suppression l max_iou) max_iou).Perm
      (non_maximum_suppression l max_iou) := by
  have hS : (non_maximum_suppression l max_iou).Pairwise (iouLe max_iou) :=
    nms_loop_pairwise max_iou l.reverse [] List.Pairwise.nil
  have hrev :
      (non_maximum_suppression l max_iou).reverse.Pairwise (iouLe max_iou) := by
    rw [List.pairwise_reverse]
    exact hS.imp (fun {p q} h => by unfold iouLe at *; rw [iou_comm]; exact h)
  have hkeep := nms_loop_all_kept max_iou
    (non_maximum_suppression l max_iou).reverse [] hrev (by simp)
  have heq : non_maximum_suppression (non_maximum_suppression l max_iou) max_iou
      = (non_maximum_suppression l max_iou).reverse := by
    unfold non_maximum_suppression at hkeep ⊢
    rw [hkeep, List.nil_append]
  rw [heq]
  exact List.reverse_perm _

/-- Claim C10: on an input sorted in ascending order of confidence,
`non_maximum_suppression` returns a list sorted in descending order of
confidence. -/
theorem nms_output_desc (l : List (Bbox × ℚ)) (max_iou : ℚ)
    (h : l.Pairwise (fun p q => p.2 ≤ q.2)) :
    (non_maximum_suppression l max_iou).Pairwise (fun p q => q.2 ≤ p.2) := by
  refine nms_loop_desc max_iou l.reverse [] ?_ List.Pairwise.nil (by simp)
  rw [List.pairwise_reverse]
  exact h

/-- Claim C3, counterexample: the unit box has positive width and
height, yet its self-IoU is not 1, because the `+ EPS` term is added to
the denominator unconditionally and at area 1 it is not absorbed: the
embedding computes `1 / (1 + EPS)`, and the program's f32 rounds
`1.0 + 1.0e-7` up to the next float, giving `1 - 2^-23` — in both
arithmetics the result differs from 1. -/
theorem iou_self_unit_box_ne_one :
    0 < (Bbox.mk 0 0 1 1).x_br - (Bbox.mk 0 0 1 1).x_tl ∧
    0 < (Bbox.mk 0 0 1 1).y_br - (Bbox.mk 0 0 1 1).y_tl ∧
    iou (Bbox.mk 0 0 1 1) (Bbox.mk 0 0 1 1) ≠ 1 := by
  refine ⟨by norm_num, by norm_num, ?_⟩
  rw [iou_self]
  norm_num [bbox_area, EPS]

/-- Claim C3 (amended): `IoU(a,a) = 1` does not hold for every box with
positive width and height — at the unit box `[0,0,1,1]` the self-IoU
differs from 1 (no stronger universal statement about the self-IoU is
made: in the program's f32 the `EPS` tail is absorbed for areas of 2 or
more, where the self-IoU is exactly 1.0) — and for every two boxes with
no spatial overlap the IoU equals 0. -/
theorem iou_unit_box_ne_one_and_disjoint_zero :
    (0 < (Bbox.mk 0 0 1 1).x_br - (Bbox.mk 0 0 1 1).x_tl ∧
     0 < (Bbox.mk 0 0 1 1).y_br - (Bbox.mk 0 0 1 1).y_tl ∧
     iou (Bbox.mk 0 0 1 1) (Bbox.mk 0 0 1 1) ≠ 1) ∧
    (∀ a b : Bbox,
      a.x_br < b.x_tl ∨ b.x_br < a.x_tl ∨ a.y_br < b.y_tl ∨ b.y_br < a.y_tl →
      iou a b = 0) := by
  refine ⟨⟨by norm_num, by norm_num, ?_⟩, iou_disjoint⟩
  rw [iou_self]
  norm_num [bbox_area, EPS]

/-- Witness for C3 (amended), discharging the disjointness hypothesis at
the concrete pair `[0,0,1,1]`, `[5,5,6,6]`. -/
theorem iou_unit_box_ne_one_and_disjoint_zero_witness :
    iou (Bbox.mk 0 0 1 1) (Bbox.mk 5 5 6 6) = 0 :=
  iou_unit_box_ne_one_and_disjoint_zero.2 (Bbox.mk 0 0 1 1) (Bbox.mk 5 5 6 6)
    (Or.inl (by norm_num))

/-- Witness for C10 at an ascending two-element input. -/
theorem nms_output_desc_witness :
    ([(Bbox.mk 0 0 1 1, (1/4 : ℚ)), (Bbox.mk 5 5 6 6, 3/4)].Pairwise
      (fun p q => p.2 ≤ q.2)) ∧
    (non_maximum_suppression
        [(Bbox.mk 0 0 1 1, (1/4 : ℚ)), (Bbox.mk 5 5 6 6, 3/4)] (1/2)).Pairwise
      (fun p q => q.2 ≤ p.2) :=
  ⟨by norm_num, nms_output_desc _ _ (by norm_num)⟩

/-- Folding `push` over a list of items appends them in order. -/
theorem foldl_push {α : Type} :
    ∀ (items acc : List α), items.foldl push acc = acc ++ items
  | [], acc => by simp
  | x :: xs, acc => by
    rw [List.foldl_cons, foldl_push xs (push acc x), push, List.append_assoc]
    rfl

/-- Claim C4: pushing a sequence of jobs and then draining once returns
exactly the pushed jobs in push order and leaves the queue empty; in
particular, draining the empty queue returns the empty sequence. -/
theorem drain_fifo (α : Type) (items : List α) :
    drain (items.foldl push ([] : List α)) = (items, []) ∧
    drain ([] : List α) = ([], []) := by
  rw [drain, foldl_push items [], List.nil_append]
  exact ⟨rfl, rfl⟩

/-- Claim C6: `is_full` is true exactly when the queue length strictly
exceeds `QUEUE_SIZE = 10000`; at a length of exactly 10000 it is false,
and at 10001 it is true. -/
theorem is_full_iff_length_gt :
    (∀ (α : Type) (q : List α), is_full q = true ↔ QUEUE_SIZE < q.length) ∧
    is_full (List.replicate 10000 ()) = false ∧
    is_full (List.replicate 10001 ()) = true := by
  refine ⟨fun α q => ?_, ?_, ?_⟩
  · simp [is_full]
  · unfold is_full
    rw [List.length_replicate]
    rfl
  · unfold is_full
    rw [List.length_replicate]
    rfl

/-- Claim C7: the confidence filter keeps a (non-NaN) candidate exactly
when its confidence is strictly greater than `CONFIDENCE_THRESHOLD`
(1/2); in particular a candidate at exactly 1/2 is dropped and one at
51/100 is kept. -/
theorem confidence_filter_strict :
    (∀ (l : List (Bbox × Flt)) (b : Bbox) (c : ℚ),
      (b, some c) ∈ confidence_filter l ↔
        (b, some c) ∈ l ∧ CONFIDENCE_THRESHOLD < c) ∧
    confidence_filter [(Bbox.mk 0 0 1 1, some (1/2))] = [] ∧
    confidence_filter [(Bbox.mk 0 0 1 1, some (51/100))]
      = [(Bbox.mk 0 0 1 1, some (51/100))] := by
  refine ⟨fun l b c => ?_, ?_, ?_⟩
  · simp [confidence_filter, List.mem_filter, flt_gt]
  · norm_num [confidence_filter, flt_gt, CONFIDENCE_THRESHOLD, List.filter]
  · norm_num [confidence_filter, flt_gt, CONFIDENCE_THRESHOLD, List.filter]

/-- Claim C5, counterexample to "treated as an inference failure": on a
candidate list whose only confidence is NaN, `post_process` succeeds
(returns `Ok` with an empty detection list) instead of reporting any
failure — the NaN candidate is silently dropped by the strict filter. -/
theorem post_process_nan_is_ok :
    post_process_res [(Bbox.mk 0 0 1 1, none)] = Except.ok [] := rfl

/-- Claim C5 (amended): NaN confidences never propagate into the sort
and NMS stages — every candidate surviving the confidence filter has a
non-NaN confidence, and removing a NaN candidate does not change the
postprocessor's output — but a NaN confidence is not treated as an
inference failure: the candidate is silently dropped. -/
theorem nan_conf_never_reaches_sort_nms (cands : List (Bbox × Flt)) :
    (∀ p ∈ confidence_filter cands, p.2.isSome = true) ∧
    (∀ b : Bbox, post_process ((b, none) :: cands) = post_process cands) := by
  constructor
  · intro p hp
    have := (List.mem_filter.mp hp).2
    match hpc : p.2 with
    | some v => rfl
    | none => rw [hpc] at this; simp [flt_gt] at this
  · intro b
    have hfilter : confidence_filter ((b, none) :: cands)
        = confidence_filter cands := by
      simp [confidence_filter, flt_gt]
    rw [post_process, hfilter, post_process]

/-- Witness for C5 (amended): a surviving candidate has a non-NaN
confidence, and dropping a NaN candidate leaves the output unchanged. -/
theorem nan_conf_never_reaches_sort_nms_witness :
    (Bbox.mk 0 0 1 1, (some 1 : Flt)).2.isSome = true ∧
    post_process [(Bbox.mk 0 0 2 2, none), (Bbox.mk 0 0 1 1, some 1)]
      = post_process [(Bbox.mk 0 0 1 1, some 1)] :=
  ⟨(nan_conf_never_reaches_sort_nms [(Bbox.mk 0 0 1 1, some 1)]).1
      (Bbox.mk 0 0 1 1, some 1)
      (by norm_num [confidence_filter, flt_gt, CONFIDENCE_THRESHOLD,
        List.filter]),
   (nan_conf_never_reaches_sort_nms [(Bbox.mk 0 0 1 1, some 1)]).2
      (Bbox.mk 0 0 2 2)⟩

/-- Claim C2, evaluation at the failing input: a job that opens and
decodes but whose inference call fails makes the loop body panic through
the `.unwrap()` on `ultra_predictor.run(..)` — the failure is not
handled, the staged file removal is never reached, and the remaining
jobs of the drain are not processed. -/
theorem inference_failure_panics :
    process_item (JobEnv.mk true true false true true true true)
      = StepResult.panicked ∧
    attempts_remove (JobEnv.mk true true false true true true true) = false ∧
    process_drain [JobEnv.mk true true false true true true true,
        JobEnv.mk true true true true true true true]
      = [StepResult.panicked] :=
  ⟨rfl, rfl, rfl⟩

/-- Claim C8: whenever the loop body reaches the staged-file removal and
the removal fails, the result is `process::exit(-1)`; once a job ends in
`procExit` no later job of that drain is processed; and the removal is
reached on the success path and on every handled per-job failure path —
the only path that skips it is the inference-failure path, which panics
before cleanup (tracked as the C2 code bug). -/
theorem cleanup_failure_fatal :
    (∀ j : JobEnv, attempts_remove j = true → j.removeOk = false →
      process_item j = StepResult.procExit) ∧
    (∀ (j : JobEnv) (rest : List JobEnv),
      process_item j = StepResult.procExit →
      process_drain (j :: rest) = [StepResult.procExit]) ∧
    (∀ j : JobEnv, attempts_remove j = false ↔
      (j.openOk = true ∧ j.decodeOk = true ∧ j.inferOk = false)) := by
  refine ⟨?_, ?_, ?_⟩
  · rintro ⟨o, d, i, cr, w, f, r⟩ ha hr
    cases o <;> cases d <;> cases i <;> cases cr <;> cases w <;> cases f <;>
      cases r <;> simp_all [process_item, attempts_remove, remove_temp_file]
  · intro j rest h
    simp [process_drain, h]
  · rintro ⟨o, d, i, cr, w, f, r⟩
    cases o <;> cases d <;> cases i <;> simp [attempts_remove]

/-- Witness for C8: a job whose processing succeeds but whose staged-file
removal fails terminates the process, and the next job of the drain is
never processed. -/
theorem cleanup_failure_fatal_witness :
    process_item (JobEnv.mk true true true true true true false)
      = StepResult.procExit ∧
    process_drain [JobEnv.mk true true true true true true false,
        JobEnv.mk true true true true true true true]
      = [StepResult.procExit] :=
  ⟨cleanup_failure_fatal.1 (JobEnv.mk true true true true true true false)
      rfl rfl,
   cleanup_failure_fatal.2.1 (JobEnv.mk true true true true true true false)
      [JobEnv.mk true true true true true true true]
      (cleanup_failure_fatal.1 (JobEnv.mk true true true true true true false)
        rfl rfl)⟩

end FaceDetection
